import Mathlib

/-!
Shallow embedding of the pantryManager simulation core (src/src/simulation.py)
and verification of the frozen claims about it.

Conventions of the embedding:
* Python `float` masses are modelled as `ℚ` (exact arithmetic; the spec's
  statements are all "modulo floating point").
* Python `int` day horizons are modelled as `ℤ`.
* Python's global random source is modelled by explicit oracle functions
  passed to the randomized operations; a theorem quantifying over all oracles
  covers every possible sequence of draws.
* In-place mutation of objects (FoodItem quantities, pantry lists) is
  modelled by explicit state passing: an operation that mutates a list
  returns the new list.
-/

namespace PantrySim

/-- `FoodType` enum (simulation.py lines 9-12). -/
inductive FoodType
  | LEFTOVER
  | PERISHABLE
  | NON_PERISHABLE
  deriving DecidableEq, Repr

/-- The Python `Enum` member name, as used by `food_type.name` in
`GroceryStore.get_order`. -/
def FoodType.pyName : FoodType → String
  | .LEFTOVER => "LEFTOVER"
  | .PERISHABLE => "PERISHABLE"
  | .NON_PERISHABLE => "NON_PERISHABLE"

/-- Module-level constant `EMERGENCY_TAKEOUT` (simulation.py line 6). -/
def EMERGENCY_TAKEOUT : String := "Emergency Takeout"

/-- `FoodItem` state (simulation.py lines 15-33).  The constructor's
validation check is modelled separately by `ctorRejects`. -/
structure FoodItem where
  name : String
  food_type : FoodType
  best_before : ℤ
  spoilage_date : ℤ
  quantity : ℚ
  deriving DecidableEq, Repr

/-- The validation condition under which `FoodItem.__init__` raises
`ValueError` (simulation.py lines 31-32): `best_before > spoilage_date`. -/
def ctorRejects (best_before spoilage_date : ℤ) : Bool :=
  best_before > spoilage_date

/-- `FoodItem.day_passes` (simulation.py lines 49-57): each horizon is
decremented only while it is still positive. -/
def FoodItem.day_passes (f : FoodItem) : FoodItem :=
  { f with
    best_before := if f.best_before > 0 then f.best_before - 1 else f.best_before
    spoilage_date := if f.spoilage_date > 0 then f.spoilage_date - 1 else f.spoilage_date }

/-- `FoodItem.is_past_best_before` (simulation.py lines 59-66). -/
def FoodItem.is_past_best_before (f : FoodItem) : Bool :=
  decide (f.best_before ≤ 0)

/-- `FoodItem.is_expired` (simulation.py lines 68-75). -/
def FoodItem.is_expired (f : FoodItem) : Bool :=
  decide (f.spoilage_date ≤ 0)

/-- `FoodItem.consume` (simulation.py lines 35-47): `none` models the
`ValueError` raised when more than the available quantity is requested. -/
def FoodItem.consume (f : FoodItem) (amount : ℚ) : Option FoodItem :=
  if amount > f.quantity then none
  else some { f with quantity := f.quantity - amount }

/-- `day_passes` iterated `n` times. -/
def dayPassesN (f : FoodItem) : ℕ → FoodItem
  | 0 => f
  | n + 1 => (dayPassesN f n).day_passes

/-- Total mass of a list of food items
(`sum(item.quantity for item in ...)`). -/
def massSum (l : List FoodItem) : ℚ :=
  (l.map FoodItem.quantity).sum

/-- Sum of the take-amounts of a selection
(`sum([d[1] for d in chosen_foods])`, simulation.py line 414). -/
def takesSum (sel : List (FoodItem × ℚ)) : ℚ :=
  (sel.map Prod.snd).sum

/-- `StrictStrategy.should_discard` (simulation.py lines 99-110). -/
def StrictStrategy.should_discard (item : FoodItem) : Bool :=
  item.is_past_best_before

/-- `LaxStrategy.should_discard` (simulation.py lines 113-124). -/
def LaxStrategy.should_discard (item : FoodItem) : Bool :=
  item.is_expired

/-- `Pantry` state (simulation.py lines 127-143).  The two sub-dictionaries
of `waste_log` are modelled as association lists from day number to the
per-category weight table; `Pantry.step` prepends one entry per call. -/
structure Pantry where
  items_by_type : FoodType → List FoodItem
  waste_expired : List (ℕ × (FoodType → ℚ))
  waste_strategy : List (ℕ × (FoodType → ℚ))
  current_day : ℕ

/-- A fresh pantry (simulation.py `Pantry.__init__`). -/
def Pantry.empty : Pantry :=
  { items_by_type := fun _ => []
    waste_expired := []
    waste_strategy := []
    current_day := 0 }

/-- `Pantry.get_items_by_type` (simulation.py lines 219-220). -/
def Pantry.get_items_by_type (p : Pantry) (t : FoodType) : List FoodItem :=
  p.items_by_type t

/-- `Pantry.get_total_by_type` (simulation.py lines 198-208). -/
def Pantry.get_total_by_type (p : Pantry) (t : FoodType) : ℚ :=
  massSum (p.items_by_type t)

/-- `Pantry.get_total` (simulation.py lines 222-223). -/
def Pantry.get_total (p : Pantry) : ℚ :=
  massSum (p.items_by_type .LEFTOVER) + massSum (p.items_by_type .PERISHABLE)
    + massSum (p.items_by_type .NON_PERISHABLE)

/-- Replace one category's list, leaving the others untouched (the effect of
mutating `pantry.items_by_type[t]` in place). -/
def Pantry.setItems (p : Pantry) (t : FoodType) (l : List FoodItem) : Pantry :=
  { p with items_by_type := fun s => if s = t then l else p.items_by_type s }

/-- `weights[item.food_type] += item.quantity` on a per-category table. -/
def bump (w : FoodType → ℚ) (t : FoodType) (q : ℚ) : FoodType → ℚ :=
  fun s => if s = t then w s + q else w s

/-- Sum of a per-category weight table over all three categories. -/
def totalW (w : FoodType → ℚ) : ℚ :=
  w .LEFTOVER + w .PERISHABLE + w .NON_PERISHABLE

/-- The classification state built by the loop body of `Pantry.step`
(simulation.py lines 162-186): the three removal lists and the two weight
tables. -/
structure StepAcc where
  expired_items : List FoodItem
  strategy_discards : List FoodItem
  empty_items : List FoodItem
  weights_expired : FoodType → ℚ
  weights_strategy_discarded : FoodType → ℚ

/-- Initial accumulator of `Pantry.step`: empty lists, all weights zero. -/
def initAcc : StepAcc :=
  { expired_items := []
    strategy_discards := []
    empty_items := []
    weights_expired := fun _ => 0
    weights_strategy_discarded := fun _ => 0 }

/-- One iteration of the `Pantry.step` loop (simulation.py lines 171-186):
age the item, then classify it as empty / expired / strategy-discarded /
kept by the if-elif chain, updating the matching list and weight table. -/
def stepItem (strategy : FoodItem → Bool) (acc : StepAcc) (item : FoodItem) : StepAcc :=
  let g := item.day_passes
  if g.quantity ≤ 1 / 1000 then
    { acc with empty_items := acc.empty_items ++ [g] }
  else if g.is_expired then
    { acc with
      expired_items := acc.expired_items ++ [g]
      weights_expired := bump acc.weights_expired g.food_type g.quantity }
  else if strategy g then
    { acc with
      strategy_discards := acc.strategy_discards ++ [g]
      weights_strategy_discarded := bump acc.weights_strategy_discarded g.food_type g.quantity }
  else acc

/-- The full classification pass of `Pantry.step` over the three category
lists, in the dictionary's insertion order LEFTOVER, PERISHABLE,
NON_PERISHABLE. -/
def Pantry.stepAcc (strategy : FoodItem → Bool) (p : Pantry) : StepAcc :=
  ((p.items_by_type .LEFTOVER).foldl (stepItem strategy)
      initAcc
    |> (p.items_by_type .PERISHABLE).foldl (stepItem strategy))
    |> (p.items_by_type .NON_PERISHABLE).foldl (stepItem strategy)

/-- The content of one category list after `Pantry.step`: every item aged,
and the items placed on any of the three removal lists taken out
(simulation.py lines 192-196; classification is a function of the aged
item's value, so removal-by-identity coincides with this filter). -/
def Pantry.stepList (strategy : FoodItem → Bool) (l : List FoodItem) : List FoodItem :=
  (l.map FoodItem.day_passes).filter fun g =>
    !(decide (g.quantity ≤ 1 / 1000)) && !g.is_expired && !(strategy g)

/-- `Pantry.step` (simulation.py lines 156-196). -/
def Pantry.step (strategy : FoodItem → Bool) (p : Pantry) : Pantry :=
  let acc := p.stepAcc strategy
  { items_by_type := fun t => Pantry.stepList strategy (p.items_by_type t)
    waste_expired := (p.current_day + 1, acc.weights_expired) :: p.waste_expired
    waste_strategy := (p.current_day + 1, acc.weights_strategy_discarded) :: p.waste_strategy
    current_day := p.current_day + 1 }

/-- `BasicConsumptionStrategy.select_food` (simulation.py lines 271-303) on
one category list.  The second component is the category list after the
call: the walk only reads the list, so it is returned rebuilt unchanged. -/
def BasicConsumptionStrategy.select_food :
    List FoodItem → ℚ → List (FoodItem × ℚ) × List FoodItem
  | [], _ => ([], [])
  | food :: rest, amount =>
    if amount ≤ 0 then ([], food :: rest)
    else if food.quantity ≤ amount then
      let r := BasicConsumptionStrategy.select_food rest (amount - food.quantity)
      ((food, food.quantity) :: r.1, food :: r.2)
    else ([(food, amount)], food :: rest)

/-- Worker for `RandomConsumptionStrategy.select_food` (simulation.py lines
306-344).  `oracle k % length` models the `random.choice` of the k-th loop
iteration.  An item taken in full is removed from the working list — which
is the pantry's own category list.  A partial take ends the loop; its
position and amount are reported so that the later `FoodItem.consume` can
be applied to the item still sitting in the list.  The fuel is the list
length: each full take removes one element, so fuel 0 is reached only with
an empty list, where the loop body would not run. -/
def randomSelectAux (oracle : ℕ → ℕ) :
    ℕ → ℕ → List FoodItem → ℚ → List (FoodItem × ℚ) × List FoodItem × Option (ℕ × ℚ)
  | 0, _, l, _ => ([], l, none)
  | fuel + 1, k, l, amount =>
    if h : 0 < amount ∧ l ≠ [] then
      let i : ℕ := oracle k % l.length
      let food := l.get ⟨i, Nat.mod_lt _ (List.length_pos.mpr h.2)⟩
      if food.quantity ≤ amount then
        let r := randomSelectAux oracle fuel (k + 1) (l.eraseIdx i) (amount - food.quantity)
        ((food, food.quantity) :: r.1, r.2)
      else ([(food, amount)], l, some (i, amount))
    else ([], l, none)

/-- `RandomConsumptionStrategy.select_food` (simulation.py lines 306-344). -/
def RandomConsumptionStrategy.select_food (oracle : ℕ → ℕ)
    (l : List FoodItem) (amount : ℚ) :
    List (FoodItem × ℚ) × List FoodItem × Option (ℕ × ℚ) :=
  randomSelectAux oracle l.length 0 l amount

/-- Subtract a take-amount from the quantity of the list element at a given
position: the effect of `FoodItem.consume` on an item aliased inside a
pantry list. -/
def consumeAt : List FoodItem → ℕ → ℚ → List FoodItem
  | [], _, _ => []
  | f :: rest, 0, a => { f with quantity := f.quantity - a } :: rest
  | f :: rest, i + 1, a => f :: consumeAt rest i a

/-- Apply the pending partial consume of a random selection to the
post-selection list.  `Meal.consume` (simulation.py line 442) skips the
subtraction when the selected object's name is `"Emergency Takeout"`. -/
def applyPartial (l : List FoodItem) : Option (ℕ × ℚ) → List FoodItem
  | none => l
  | some (i, a) =>
    match l.get? i with
    | none => l
    | some f => if f.name = EMERGENCY_TAKEOUT then l else consumeAt l i a

/-- The category list after `Meal.consume` has applied `FoodItem.consume`
to every item selected by the basic strategy (simulation.py lines 440-444):
the walked items lose their take, except items named `"Emergency Takeout"`,
which the name check at line 442 skips. -/
def basicApply : List FoodItem → ℚ → List FoodItem
  | [], _ => []
  | food :: rest, amount =>
    if amount ≤ 0 then food :: rest
    else if food.quantity ≤ amount then
      (if food.name = EMERGENCY_TAKEOUT then food
       else { food with quantity := food.quantity - food.quantity }) ::
        basicApply rest (amount - food.quantity)
    else
      (if food.name = EMERGENCY_TAKEOUT then food
       else { food with quantity := food.quantity - amount }) :: rest

/-- A consumption strategy as selected at Household construction:
`BasicConsumptionStrategy`, `RandomConsumptionStrategy`, or
`MixedConsumptionStrategy` (simulation.py lines 260-382).  The oracles
model the global random source, indexed by `select_food` invocation and,
inside one invocation, by loop iteration; `fifo` models the
`random.random() < fifo_probability` coin of the mixed strategy. -/
inductive StratChoice
  | basic
  | random (oracle : ℕ → ℕ → ℕ)
  | mixed (fifo : ℕ → Bool) (oracle : ℕ → ℕ → ℕ)

/-- Selection and net pantry effect of one `select_food` call followed by
the `FoodItem.consume` applications of `Meal.consume`, on one category
list.  `call` numbers the `select_food` invocation (for the oracles). -/
def stratRun : StratChoice → ℕ → List FoodItem → ℚ → List (FoodItem × ℚ) × List FoodItem
  | .basic, _, l, a =>
    ((BasicConsumptionStrategy.select_food l a).1, basicApply l a)
  | .random o, call, l, a =>
    let r := RandomConsumptionStrategy.select_food (o call) l a
    (r.1, applyPartial r.2.1 r.2.2)
  | .mixed fifo o, call, l, a =>
    if fifo call then ((BasicConsumptionStrategy.select_food l a).1, basicApply l a)
    else
      let r := RandomConsumptionStrategy.select_food (o call) l a
      (r.1, applyPartial r.2.1 r.2.2)

/-- The synthesized `"Emergency Takeout"` placeholder
(simulation.py line 419). -/
def emergencyItem (remaining : ℚ) : FoodItem :=
  { name := EMERGENCY_TAKEOUT
    food_type := .PERISHABLE
    best_before := 0
    spoilage_date := 0
    quantity := remaining }

/-- One iteration of the `Meal.choose_food_to_eat` loop combined with the
matching `FoodItem.consume` applications of `Meal.consume` (simulation.py
lines 404-446), on one category: select, compute the shortfall, append the
placeholder when the shortfall is positive, and return the category list
with the selected takes subtracted. -/
def consumeEntry (s : StratChoice) (call : ℕ) (a : ℚ) (l : List FoodItem) :
    List (FoodItem × ℚ) × List FoodItem :=
  let r := stratRun s call l a
  let consumed_amount := takesSum r.1
  let remaining_amount := a - consumed_amount
  ((if 0 < remaining_amount then
      r.1 ++ [(emergencyItem remaining_amount, remaining_amount)]
    else r.1), r.2)

/-- `Meal.consume` over the consumption-pattern entries, threading the
pantry (simulation.py lines 404-446).  The pattern is the meal's
`consumption_patterns` dictionary as an association list in insertion
order. -/
def mealConsumeAux (s : StratChoice) :
    ℕ → List (FoodType × ℚ) → Pantry → List (FoodItem × ℚ) × Pantry
  | _, [], p => ([], p)
  | call, (t, a) :: rest, p =>
    let e := consumeEntry s call a (p.items_by_type t)
    let r := mealConsumeAux s (call + 1) rest (p.setItems t e.2)
    (e.1 ++ r.1, r.2)

/-- `Meal.consume` (simulation.py lines 423-446): returns the realized
consumption record (placeholders included) and the pantry afterwards. -/
def Meal.consume (s : StratChoice) (pattern : List (FoodType × ℚ)) (p : Pantry) :
    List (FoodItem × ℚ) × Pantry :=
  mealConsumeAux s 0 pattern p

/-- Sum of the take-amounts of the selected items not named
`"Emergency Takeout"` — the items `Meal.consume` actually subtracts. -/
def realTakes (c : List (FoodItem × ℚ)) : ℚ :=
  takesSum (c.filter fun fc => decide (fc.1.name ≠ EMERGENCY_TAKEOUT))

/-- `FreshFirstStrategy.plan_meal` (simulation.py lines 609-638): the
consumption pattern it stores on the returned Meal, as an association list
in the dictionary's insertion order. -/
def FreshFirstStrategy.plan_meal (total_grams : ℚ) (p : Pantry) : List (FoodType × ℚ) :=
  let leftovers := p.get_total_by_type .LEFTOVER
  let perishables := p.get_total_by_type .PERISHABLE
  let leftovers_to_consume := min leftovers total_grams
  let rem1 := total_grams - leftovers_to_consume
  let perishables_to_consume := min perishables rem1
  let rem2 := rem1 - perishables_to_consume
  [(.LEFTOVER, leftovers_to_consume), (.PERISHABLE, perishables_to_consume),
    (.NON_PERISHABLE, rem2)]

/-- `ProportionalConsumptionStrategy.plan_meal` (simulation.py lines
641-677). -/
def ProportionalConsumptionStrategy.plan_meal (proportion_perishables : ℚ)
    (total_grams : ℚ) (p : Pantry) : List (FoodType × ℚ) :=
  let leftovers_available := p.get_total_by_type .LEFTOVER
  let perishables_available := p.get_total_by_type .PERISHABLE
  let leftovers_to_consume := min leftovers_available total_grams
  let rem := total_grams - leftovers_to_consume
  let perishables_to_consume := rem * proportion_perishables
  let non_perishables_to_consume := rem - perishables_to_consume
  if perishables_available ≤ perishables_to_consume then
    let to_transfer := perishables_to_consume - perishables_available
    [(.LEFTOVER, leftovers_to_consume), (.PERISHABLE, perishables_available),
      (.NON_PERISHABLE, non_perishables_to_consume + to_transfer)]
  else
    [(.LEFTOVER, leftovers_to_consume), (.PERISHABLE, perishables_to_consume),
      (.NON_PERISHABLE, non_perishables_to_consume)]

/-- Total mass of a consumption pattern. -/
def patternTotal (pattern : List (FoodType × ℚ)) : ℚ :=
  (pattern.map Prod.snd).sum

/-- Python `int()` on a rational: truncation toward zero. -/
def pyInt (x : ℚ) : ℤ :=
  if 0 ≤ x then ⌊x⌋ else ⌈x⌉

/-- The `while` loop of `GroceryStore.get_order` (simulation.py lines
710-732), fuelled.  `bbDraw`/`sdDraw` model the two
`_draw_from_distribution` Gaussian draws (already truncated to integers),
`qDraw` models `random.uniform(0.1 * total_quantity, 0.5 * total_quantity)`;
all three are indexed by loop iteration.  Also returns the final
`remaining_quantity` and `failures` counters.  The fuel chosen by
`GroceryStore.get_order` exceeds the iteration count of every run whose
quantity draws are nonnegative. -/
def getOrderAux (ft : FoodType) (bbDraw sdDraw : ℕ → ℤ) (qDraw : ℕ → ℚ) :
    ℕ → ℕ → ℤ → ℕ → List FoodItem × ℤ × ℕ
  | 0, _, remaining, failures => ([], remaining, failures)
  | fuel + 1, idx, remaining, failures =>
    if 0 < remaining ∧ failures < 100 then
      let best_before := bbDraw idx
      let spoilage_date := max (best_before + 1) (sdDraw idx)
      let quantity := pyInt (min (qDraw idx) (remaining : ℚ))
      if quantity = 0 then
        getOrderAux ft bbDraw sdDraw qDraw fuel (idx + 1) remaining (failures + 1)
      else
        let r := getOrderAux ft bbDraw sdDraw qDraw fuel (idx + 1) (remaining - quantity) failures
        ({ name := ft.pyName ++ " - item"
           food_type := ft
           best_before := best_before
           spoilage_date := spoilage_date
           quantity := (quantity : ℚ) } :: r.1, r.2)
    else ([], remaining, failures)

/-- `GroceryStore.get_order` (simulation.py lines 699-732): the order list
plus the final `remaining_quantity` and `failures` counters. -/
def GroceryStore.get_order (ft : FoodType) (total_quantity : ℚ)
    (bbDraw sdDraw : ℕ → ℤ) (qDraw : ℕ → ℚ) : List FoodItem × ℤ × ℕ :=
  getOrderAux ft bbDraw sdDraw qDraw ((pyInt total_quantity).toNat + 101) 0
    (pyInt total_quantity) 0

/-- `FixedConsumptionPolicy` state (simulation.py lines 735-797), with the
countdown field set up by `OrderPolicy.__init__`. -/
structure FixedConsumptionPolicy where
  daily_consumption_perishable : ℚ
  daily_consumption_non_perishable : ℚ
  frequency : ℤ
  safety_stock_perishable : ℚ
  safety_stock_non_perishable : ℚ
  days_until_next_order : ℤ
  deriving DecidableEq, Repr

/-- `FixedConsumptionPolicy.__init__` (simulation.py lines 781-797): calls
`OrderPolicy.__init__`, which sets `days_until_next_order = frequency`. -/
def FixedConsumptionPolicy.init (dcp dcnp : ℚ) (frequency : ℤ) (ssp ssnp : ℚ) :
    FixedConsumptionPolicy :=
  { daily_consumption_perishable := dcp
    daily_consumption_non_perishable := dcnp
    frequency := frequency
    safety_stock_perishable := ssp
    safety_stock_non_perishable := ssnp
    days_until_next_order := frequency }

/-- `HistoricalConsumptionPolicy` instance state (simulation.py lines
820-832).  Its `__init__` stores only `base_policy` and does not call the
base initializer, so the `days_until_next_order` (and `frequency`)
attributes are never created on the instance; the `Option` models the
attribute table, `none` meaning the attribute is absent and any read of it
raises `AttributeError`. -/
structure HistoricalConsumptionPolicy where
  base_policy : FixedConsumptionPolicy
  days_until_next_order : Option ℤ
  deriving DecidableEq, Repr

/-- `HistoricalConsumptionPolicy.__init__` (simulation.py lines 825-832):
only `self.base_policy = base_policy` is executed. -/
def HistoricalConsumptionPolicy.init (base_policy : FixedConsumptionPolicy) :
    HistoricalConsumptionPolicy :=
  { base_policy := base_policy, days_until_next_order := none }

/-- The inherited `decrement_days_until_next_order` (simulation.py lines
763-767) applied to a `HistoricalConsumptionPolicy`: `self.days_until_next_order -= 1`
first reads the attribute, so it returns `none` (an `AttributeError`) when
the attribute was never created. -/
def HistoricalConsumptionPolicy.decrement_days_until_next_order
    (p : HistoricalConsumptionPolicy) : Option HistoricalConsumptionPolicy :=
  p.days_until_next_order.map fun d => { p with days_until_next_order := some (d - 1) }

/-- `AdaptiveOrderPolicy.__init__` (simulation.py lines 858-879): delegates
to `FixedConsumptionPolicy.__init__` with the base policy's parameters, so
the countdown is set to the frequency.  `delta` is tracked separately. -/
def AdaptiveOrderPolicy.init (base_policy : FixedConsumptionPolicy) :
    FixedConsumptionPolicy :=
  FixedConsumptionPolicy.init base_policy.daily_consumption_perishable
    base_policy.daily_consumption_non_perishable base_policy.frequency
    base_policy.safety_stock_perishable base_policy.safety_stock_non_perishable

/-- The per-meal consumption bookkeeping of `Household.daily_step`
(simulation.py lines 1143-1146): fold over the realized consumption record,
adding each amount to `daily_consumption[food_type]` and, when the item is
named `"Emergency Takeout"`, also to `daily_emergency_takeouts`. -/
def accumulateConsumption (consumption : List (FoodItem × ℚ)) : (FoodType → ℚ) × ℚ :=
  consumption.foldl
    (fun acc fc =>
      (bump acc.1 fc.1.food_type fc.2,
       if fc.1.name = EMERGENCY_TAKEOUT then acc.2 + fc.2 else acc.2))
    (fun _ => 0, 0)

/-- Sum of the perishable take-amounts of the genuine (non-placeholder)
items in a consumption record. -/
def realPerishable (c : List (FoodItem × ℚ)) : ℚ :=
  takesSum (c.filter fun fc =>
    decide (fc.1.food_type = FoodType.PERISHABLE) && decide (fc.1.name ≠ EMERGENCY_TAKEOUT))

/-- `statistics.mean` of the PERISHABLE entry over a list of recorded
`daily_consumption` tables, as used on `household.history[-7:]` by
`HistoricalConsumptionPolicy.determine_order_quantity` (simulation.py lines
847-848). -/
def meanPerishable (records : List (FoodType → ℚ)) : ℚ :=
  ((records.map fun d => d .PERISHABLE).sum) / records.length

/-! ## Theorems -/

lemma dayPassesN_best_before_of_nonneg (f : FoodItem) (h : 0 ≤ f.best_before) :
    ∀ n : ℕ, (dayPassesN f n).best_before = max 0 (f.best_before - n) := by
  intro n
  induction n with
  | zero => simp [dayPassesN, le_antisymm_iff, h]
  | succ k ih =>
    simp only [dayPassesN, FoodItem.day_passes, ih]
    rcases le_or_lt (f.best_before - k) 0 with hle | hlt
    · have h1 : max 0 (f.best_before - (k : ℤ)) = 0 := max_eq_left hle
      simp only [h1]
      push_cast
      omega
    · have h1 : max 0 (f.best_before - (k : ℤ)) = f.best_before - k := max_eq_right hlt.le
      simp only [h1]
      push_cast
      omega

lemma dayPassesN_spoilage_of_nonneg (f : FoodItem) (h : 0 ≤ f.spoilage_date) :
    ∀ n : ℕ, (dayPassesN f n).spoilage_date = max 0 (f.spoilage_date - n) := by
  intro n
  induction n with
  | zero => simp [dayPassesN, le_antisymm_iff, h]
  | succ k ih =>
    simp only [dayPassesN, FoodItem.day_passes, ih]
    rcases le_or_lt (f.spoilage_date - k) 0 with hle | hlt
    · have h1 : max 0 (f.spoilage_date - (k : ℤ)) = 0 := max_eq_left hle
      simp only [h1]
      push_cast
      omega
    · have h1 : max 0 (f.spoilage_date - (k : ℤ)) = f.spoilage_date - k := max_eq_right hlt.le
      simp only [h1]
      push_cast
      omega

/-- C4 (counterexample): the claim is universally quantified over every
FoodItem, but an item constructed with a negative `best_before` — which the
constructor accepts, and which `GroceryStore.get_order`'s Gaussian integer
draws produce — keeps its negative horizon unchanged under `day_passes`,
while `max(0, initial - N)` says it should read 0. -/
theorem claim_C4_counterexample :
    ctorRejects (-1) 3 = false ∧
    (dayPassesN (⟨"x", .PERISHABLE, -1, 3, 1⟩ : FoodItem) 1).best_before = -1 ∧
    max 0 ((-1 : ℤ) - 1) = 0 := by
  refine ⟨rfl, ?_, rfl⟩
  simp [dayPassesN, FoodItem.day_passes]

/-- C4 (amended): for every FoodItem whose initial horizons are nonnegative,
after `day_passes()` has been called N times `best_before` equals
`max(0, initial_best_before - N)` and `spoilage_date` equals
`max(0, initial_spoilage_date - N)`; and for every FoodItem at every point,
`is_expired()` returns true iff `spoilage_date <= 0` and
`is_past_best_before()` returns true iff `best_before <= 0`. -/
theorem claim_C4_amended (f : FoodItem) (n : ℕ)
    (hb : 0 ≤ f.best_before) (hs : 0 ≤ f.spoilage_date) :
    (dayPassesN f n).best_before = max 0 (f.best_before - n) ∧
    (dayPassesN f n).spoilage_date = max 0 (f.spoilage_date - n) ∧
    (∀ g : FoodItem, (g.is_expired = true ↔ g.spoilage_date ≤ 0) ∧
      (g.is_past_best_before = true ↔ g.best_before ≤ 0)) := by
  refine ⟨dayPassesN_best_before_of_nonneg f hb n, dayPassesN_spoilage_of_nonneg f hs n, ?_⟩
  intro g
  constructor <;> simp [FoodItem.is_expired, FoodItem.is_past_best_before]

/-- Witness for C4 (amended) at a concrete item and N = 6. -/
theorem claim_C4_amended_witness :
    (0 : ℤ) ≤ 5 ∧ (0 : ℤ) ≤ 7 ∧
    (dayPassesN (⟨"w", .PERISHABLE, 5, 7, 2⟩ : FoodItem) 6).best_before
      = max 0 ((5 : ℤ) - 6) := by
  refine ⟨by decide, by decide, ?_⟩
  exact (claim_C4_amended (⟨"w", .PERISHABLE, 5, 7, 2⟩ : FoodItem) 6
    (by decide) (by decide)).1

lemma totalW_bump (w : FoodType → ℚ) (t : FoodType) (q : ℚ) :
    totalW (bump w t q) = totalW w + q := by
  cases t <;> simp [totalW, bump] <;> ring

lemma massSum_append (a b : List FoodItem) : massSum (a ++ b) = massSum a + massSum b := by
  simp [massSum]

lemma massSum_singleton (f : FoodItem) : massSum [f] = f.quantity := by
  simp [massSum]

/-- The weight tables accumulated by the `Pantry.step` loop always equal the
total mass of the matching removal list. -/
lemma stepFold_weights (strategy : FoodItem → Bool) (items : List FoodItem) (acc : StepAcc)
    (he : totalW acc.weights_expired = massSum acc.expired_items)
    (hs : totalW acc.weights_strategy_discarded = massSum acc.strategy_discards) :
    totalW (items.foldl (stepItem strategy) acc).weights_expired
      = massSum (items.foldl (stepItem strategy) acc).expired_items ∧
    totalW (items.foldl (stepItem strategy) acc).weights_strategy_discarded
      = massSum (items.foldl (stepItem strategy) acc).strategy_discards := by
  induction items generalizing acc with
  | nil => exact ⟨he, hs⟩
  | cons x xs ih =>
    simp only [List.foldl_cons]
    apply ih
    · simp only [stepItem]
      split
      · exact he
      · split
        · simp [totalW_bump, massSum_append, massSum_singleton, he]
        · split
          · exact he
          · exact he
    · simp only [stepItem]
      split
      · exact hs
      · split
        · exact hs
        · split
          · simp [totalW_bump, massSum_append, massSum_singleton, hs]
          · exact hs

/-- Every item on the expired list of the `Pantry.step` loop is expired and
not empty; every item on the strategy-discard list is not expired and not
empty; every item on the empty list is empty. -/
lemma stepFold_preds (strategy : FoodItem → Bool) (items : List FoodItem) (acc : StepAcc)
    (he : ∀ f ∈ acc.expired_items, f.is_expired = true ∧ ¬(f.quantity ≤ 1 / 1000))
    (hd : ∀ f ∈ acc.strategy_discards, f.is_expired = false ∧ ¬(f.quantity ≤ 1 / 1000))
    (hm : ∀ f ∈ acc.empty_items, f.quantity ≤ 1 / 1000) :
    (∀ f ∈ (items.foldl (stepItem strategy) acc).expired_items,
        f.is_expired = true ∧ ¬(f.quantity ≤ 1 / 1000)) ∧
    (∀ f ∈ (items.foldl (stepItem strategy) acc).strategy_discards,
        f.is_expired = false ∧ ¬(f.quantity ≤ 1 / 1000)) ∧
    (∀ f ∈ (items.foldl (stepItem strategy) acc).empty_items,
        f.quantity ≤ 1 / 1000) := by
  induction items generalizing acc with
  | nil => exact ⟨he, hd, hm⟩
  | cons x xs ih =>
    simp only [List.foldl_cons]
    apply ih
    · simp only [stepItem]
      split
      · exact he
      · rename_i hq
        split
        · rename_i hexp
          intro f hf
          simp only [List.mem_append, List.mem_singleton] at hf
          rcases hf with hf | hf
          · exact he f hf
          · subst hf
            exact ⟨hexp, hq⟩
        · split
          · exact he
          · exact he
    · simp only [stepItem]
      split
      · exact hd
      · rename_i hq
        split
        · exact hd
        · rename_i hexp
          split
          · intro f hf
            simp only [List.mem_append, List.mem_singleton] at hf
            rcases hf with hf | hf
            · exact hd f hf
            · subst hf
              exact ⟨Bool.not_eq_true _ ▸ hexp, hq⟩
          · exact hd
    · simp only [stepItem]
      split
      · rename_i hq
        intro f hf
        simp only [List.mem_append, List.mem_singleton] at hf
        rcases hf with hf | hf
        · exact hm f hf
        · subst hf
          exact hq
      · split
        · exact hm
        · split
          · exact hm
          · exact hm

/-- C1: in every `Pantry.step` call, the waste ledger entry written for the
new day holds exactly the classification pass's weight tables; the total
mass recorded in the expired bucket plus the total mass recorded in the
strategy bucket equals the total quantity of the items removed for those
two reasons; no item appears in both removal lists; and the items removed
as empty appear in neither. -/
theorem claim_C1_step_conservation (p : Pantry) (strategy : FoodItem → Bool) :
    ((p.step strategy).waste_expired
      = (p.current_day + 1, (p.stepAcc strategy).weights_expired) :: p.waste_expired) ∧
    ((p.step strategy).waste_strategy
      = (p.current_day + 1, (p.stepAcc strategy).weights_strategy_discarded)
          :: p.waste_strategy) ∧
    (totalW (p.stepAcc strategy).weights_expired
        + totalW (p.stepAcc strategy).weights_strategy_discarded
      = massSum (p.stepAcc strategy).expired_items
        + massSum (p.stepAcc strategy).strategy_discards) ∧
    (∀ f ∈ (p.stepAcc strategy).expired_items,
        f ∉ (p.stepAcc strategy).strategy_discards) ∧
    (∀ f ∈ (p.stepAcc strategy).empty_items,
        f ∉ (p.stepAcc strategy).expired_items
          ∧ f ∉ (p.stepAcc strategy).strategy_discards) := by
  have hw : totalW (p.stepAcc strategy).weights_expired
        = massSum (p.stepAcc strategy).expired_items ∧
      totalW (p.stepAcc strategy).weights_strategy_discarded
        = massSum (p.stepAcc strategy).strategy_discards := by
    unfold Pantry.stepAcc
    apply stepFold_weights
    · exact (stepFold_weights _ _ _
        ((stepFold_weights _ _ initAcc (by simp [initAcc, totalW, massSum])
          (by simp [initAcc, totalW, massSum])).1)
        ((stepFold_weights _ _ initAcc (by simp [initAcc, totalW, massSum])
          (by simp [initAcc, totalW, massSum])).2)).1
    · exact (stepFold_weights _ _ _
        ((stepFold_weights _ _ initAcc (by simp [initAcc, totalW, massSum])
          (by simp [initAcc, totalW, massSum])).1)
        ((stepFold_weights _ _ initAcc (by simp [initAcc, totalW, massSum])
          (by simp [initAcc, totalW, massSum])).2)).2
  have hp : (∀ f ∈ (p.stepAcc strategy).expired_items,
        f.is_expired = true ∧ ¬(f.quantity ≤ 1 / 1000)) ∧
      (∀ f ∈ (p.stepAcc strategy).strategy_discards,
        f.is_expired = false ∧ ¬(f.quantity ≤ 1 / 1000)) ∧
      (∀ f ∈ (p.stepAcc strategy).empty_items, f.quantity ≤ 1 / 1000) := by
    unfold Pantry.stepAcc
    have h0 := stepFold_preds strategy (p.items_by_type .LEFTOVER) initAcc
      (by simp [initAcc]) (by simp [initAcc]) (by simp [initAcc])
    have h1 := stepFold_preds strategy (p.items_by_type .PERISHABLE) _ h0.1 h0.2.1 h0.2.2
    exact stepFold_preds strategy (p.items_by_type .NON_PERISHABLE) _ h1.1 h1.2.1 h1.2.2
  refine ⟨rfl, rfl, by rw [hw.1, hw.2], ?_, ?_⟩
  · intro f hf hcontra
    have h1 := (hp.1 f hf).1
    have h2 := (hp.2.1 f hcontra).1
    rw [h1] at h2
    exact Bool.true_eq_false.mp h2
  · intro f hf
    have hq := hp.2.2 f hf
    constructor
    · intro hcontra
      exact (hp.1 f hcontra).2 hq
    · intro hcontra
      exact (hp.2.1 f hcontra).2 hq

/-- Since C1's theorem opens membership hypotheses, this instantiates it on
a concrete pantry: one already-expired perishable item of mass 2 lands on
the expired list and, by the theorem, not on the strategy-discard list. -/
theorem claim_C1_step_conservation_witness :
    (⟨"old", .PERISHABLE, 0, 1, 2⟩ : FoodItem).day_passes
      ∉ ((⟨fun t => match t with
            | .PERISHABLE => [⟨"old", .PERISHABLE, 0, 1, 2⟩]
            | _ => [], [], [], 0⟩ : Pantry).stepAcc
            StrictStrategy.should_discard).strategy_discards := by
  apply (claim_C1_step_conservation _ StrictStrategy.should_discard).2.2.2.1
  norm_num [Pantry.stepAcc, stepItem, initAcc, FoodItem.day_passes, FoodItem.is_expired]

/-- In the `Pantry.step` loop, the lax strategy behaves identically to the
constantly-false strategy: the strategy test only runs on items that are
not expired, where `LaxStrategy.should_discard` returns false. -/
lemma stepItem_lax_eq_constFalse (acc : StepAcc) (f : FoodItem) :
    stepItem LaxStrategy.should_discard acc f = stepItem (fun _ => false) acc f := by
  simp only [stepItem]
  split
  · rfl
  · split
    · rfl
    · rename_i hexp
      rw [if_neg (by simpa [LaxStrategy.should_discard] using hexp), if_neg (by simp)]

lemma stepFold_lax_eq_constFalse (items : List FoodItem) (acc : StepAcc) :
    items.foldl (stepItem LaxStrategy.should_discard) acc
      = items.foldl (stepItem (fun _ => false)) acc := by
  induction items generalizing acc with
  | nil => rfl
  | cons x xs ih =>
    simp only [List.foldl_cons, stepItem_lax_eq_constFalse]
    exact ih _

/-- Under the constantly-false strategy, the `Pantry.step` loop never
touches the strategy-discard list or its weight table. -/
lemma stepFold_constFalse_strategy (items : List FoodItem) (acc : StepAcc) :
    (items.foldl (stepItem (fun _ => false)) acc).weights_strategy_discarded
      = acc.weights_strategy_discarded ∧
    (items.foldl (stepItem (fun _ => false)) acc).strategy_discards
      = acc.strategy_discards := by
  induction items generalizing acc with
  | nil => exact ⟨rfl, rfl⟩
  | cons x xs ih =>
    simp only [List.foldl_cons]
    have hx : (stepItem (fun _ => false) acc x).weights_strategy_discarded
        = acc.weights_strategy_discarded ∧
        (stepItem (fun _ => false) acc x).strategy_discards = acc.strategy_discards := by
      simp only [stepItem]
      split
      · exact ⟨rfl, rfl⟩
      · split
        · exact ⟨rfl, rfl⟩
        · simp
    exact ⟨((ih _).1).trans hx.1, ((ih _).2).trans hx.2⟩

/-- One category list after `Pantry.step` is the same under the lax
strategy and the constantly-false strategy. -/
lemma stepList_lax_eq_constFalse (l : List FoodItem) :
    Pantry.stepList LaxStrategy.should_discard l
      = Pantry.stepList (fun _ => false) l := by
  unfold Pantry.stepList
  apply List.filter_congr
  intro g _
  by_cases h2 : g.is_expired = true
  · simp [h2]
  · simp [h2, LaxStrategy.should_discard, Bool.not_eq_true _ ▸ h2]

/-- C8: `Pantry.step` with `LaxStrategy` is behaviorally identical to
`Pantry.step` with a strategy whose `should_discard` is constantly false
(the expiry check runs first, and on a non-expired item the lax test is
false), and the strategy-discard bucket it writes for the day is zero for
every food category. -/
theorem claim_C8_lax_noop (p : Pantry) :
    p.step LaxStrategy.should_discard = p.step (fun _ => false) ∧
    (p.step LaxStrategy.should_discard).waste_strategy
      = (p.current_day + 1, fun _ => (0 : ℚ)) :: p.waste_strategy := by
  have hacc : p.stepAcc LaxStrategy.should_discard = p.stepAcc (fun _ => false) := by
    unfold Pantry.stepAcc
    simp only [stepFold_lax_eq_constFalse]
  have hzero : (p.stepAcc (fun _ => false)).weights_strategy_discarded
      = fun _ => (0 : ℚ) := by
    unfold Pantry.stepAcc
    rw [(stepFold_constFalse_strategy _ _).1, (stepFold_constFalse_strategy _ _).1,
      (stepFold_constFalse_strategy _ _).1]
    rfl
  constructor
  · unfold Pantry.step
    rw [hacc]
    have hil : (fun t => Pantry.stepList LaxStrategy.should_discard (p.items_by_type t))
        = fun t => Pantry.stepList (fun _ => false) (p.items_by_type t) := by
      funext t
      exact stepList_lax_eq_constFalse _
    rw [hil]
  · show (p.current_day + 1, (p.stepAcc LaxStrategy.should_discard).weights_strategy_discarded)
        :: p.waste_strategy = _
    rw [hacc, hzero]

/-- C3: `BasicConsumptionStrategy.select_food` leaves the pantry's category
list unchanged for every input, while `RandomConsumptionStrategy.select_food`
mutates it during selection: on a pantry holding two perishable items of
masses 2 and 3 and a request of 5, both items are taken in full and both are
removed from the category list by the selection alone (before any
`FoodItem.consume` is applied), leaving the list empty. -/
theorem claim_C3_select_frame_effects :
    (∀ (l : List FoodItem) (amount : ℚ),
        (BasicConsumptionStrategy.select_food l amount).2 = l) ∧
    (RandomConsumptionStrategy.select_food (fun _ => 0)
        [⟨"a", .PERISHABLE, 5, 5, 2⟩, ⟨"b", .PERISHABLE, 3, 3, 3⟩] 5
      = ([((⟨"a", .PERISHABLE, 5, 5, 2⟩ : FoodItem), 2),
          ((⟨"b", .PERISHABLE, 3, 3, 3⟩ : FoodItem), 3)], [], none)) := by
  constructor
  · intro l amount
    induction l generalizing amount with
    | nil => rfl
    | cons f rest ih =>
      simp only [BasicConsumptionStrategy.select_food]
      split
      · rfl
      · split
        · simp [ih]
        · rfl
  · norm_num [RandomConsumptionStrategy.select_food, randomSelectAux, List.eraseIdx]
    intro h
    exact absurd h (by simp)

/-- C2 (code evaluated at the failing input):
`HistoricalConsumptionPolicy.__init__` does not call the base initializer,
so the countdown attribute is never created (`none`), unlike
`FixedConsumptionPolicy` and `AdaptiveOrderPolicy`, whose constructions set
it to the frequency; the inherited decrement then fails on the missing
attribute. -/
theorem claim_C2_historical_countdown_unset :
    (HistoricalConsumptionPolicy.init
        (FixedConsumptionPolicy.init 1 (1/2) 7 1 1)).days_until_next_order = none ∧
    (HistoricalConsumptionPolicy.init
        (FixedConsumptionPolicy.init 1 (1/2) 7 1 1)).decrement_days_until_next_order = none ∧
    (FixedConsumptionPolicy.init 1 (1/2) 7 1 1).days_until_next_order = 7 ∧
    (AdaptiveOrderPolicy.init
        (FixedConsumptionPolicy.init 1 (1/2) 7 1 1)).days_until_next_order = 7 := by
  exact ⟨rfl, rfl, rfl, rfl⟩

/-- C6: both meal-planning strategies produce a consumption pattern that
assigns a mass to each of the three food categories, in the dictionary's
insertion order, and the three masses sum to exactly
`planned_meal.total_grams` (rationals model the floating-point values). -/
theorem claim_C6 (total_grams : ℚ) (p : Pantry) (proportion_perishables : ℚ) :
    patternTotal (FreshFirstStrategy.plan_meal total_grams p) = total_grams ∧
    (FreshFirstStrategy.plan_meal total_grams p).map Prod.fst
      = [.LEFTOVER, .PERISHABLE, .NON_PERISHABLE] ∧
    patternTotal (ProportionalConsumptionStrategy.plan_meal proportion_perishables
      total_grams p) = total_grams ∧
    (ProportionalConsumptionStrategy.plan_meal proportion_perishables
      total_grams p).map Prod.fst = [.LEFTOVER, .PERISHABLE, .NON_PERISHABLE] := by
  refine ⟨?_, ?_, ?_, ?_⟩
  · simp [FreshFirstStrategy.plan_meal, patternTotal]
  · simp [FreshFirstStrategy.plan_meal]
  · simp only [ProportionalConsumptionStrategy.plan_meal]
    split
    · simp [patternTotal]
    · simp [patternTotal]
  · simp only [ProportionalConsumptionStrategy.plan_meal]
    split <;> simp

lemma takesSum_nil : takesSum [] = 0 := rfl

lemma takesSum_cons (pr : FoodItem × ℚ) (sel : List (FoodItem × ℚ)) :
    takesSum (pr :: sel) = pr.2 + takesSum sel := by
  simp [takesSum]

lemma takesSum_append (a b : List (FoodItem × ℚ)) :
    takesSum (a ++ b) = takesSum a + takesSum b := by
  simp [takesSum]

/-- Every item selected by the basic strategy comes from the walked list. -/
lemma basicSelect_mem (l : List FoodItem) (amount : ℚ) :
    ∀ pr ∈ (BasicConsumptionStrategy.select_food l amount).1, pr.1 ∈ l := by
  induction l generalizing amount with
  | nil => simp [BasicConsumptionStrategy.select_food]
  | cons f rest ih =>
    simp only [BasicConsumptionStrategy.select_food]
    split
    · simp
    · split
      · intro pr hpr
        simp only [List.mem_cons] at hpr
        rcases hpr with hpr | hpr
        · subst hpr
          simp
        · exact List.mem_cons_of_mem _ (ih _ pr hpr)
      · intro pr hpr
        simp only [List.mem_singleton] at hpr
        subst hpr
        simp

/-- Mass bookkeeping of the basic strategy: when no walked item carries the
reserved placeholder name, applying `FoodItem.consume` to every selected
item reduces the list's total mass by exactly the selected take-amounts. -/
lemma basicApply_massSum (l : List FoodItem) (amount : ℚ)
    (hl : ∀ f ∈ l, f.name ≠ EMERGENCY_TAKEOUT) :
    massSum (basicApply l amount)
      = massSum l - takesSum (BasicConsumptionStrategy.select_food l amount).1 := by
  induction l generalizing amount with
  | nil => simp [basicApply, BasicConsumptionStrategy.select_food, massSum, takesSum]
  | cons f rest ih =>
    have hf : f.name ≠ EMERGENCY_TAKEOUT := hl f (by simp)
    have hrest : ∀ g ∈ rest, g.name ≠ EMERGENCY_TAKEOUT := fun g hg => hl g (by simp [hg])
    by_cases h0 : amount ≤ 0
    · simp [basicApply, BasicConsumptionStrategy.select_food, h0, takesSum]
    · by_cases h1 : f.quantity ≤ amount
      · have hih := ih (amount - f.quantity) hrest
        simp only [basicApply, BasicConsumptionStrategy.select_food, if_neg h0, if_pos h1,
          if_neg hf, massSum, List.map_cons, List.sum_cons, takesSum] at hih ⊢
        rw [hih]
        ring
      · simp only [basicApply, BasicConsumptionStrategy.select_food, if_neg h0, if_neg h1,
          if_neg hf, massSum, List.map_cons, List.sum_cons, takesSum, List.map_nil,
          List.sum_nil]
        ring

/-- The basic apply pass only rescales quantities: names are unchanged. -/
lemma basicApply_names (l : List FoodItem) (amount : ℚ)
    (hl : ∀ f ∈ l, f.name ≠ EMERGENCY_TAKEOUT) :
    ∀ f ∈ basicApply l amount, f.name ≠ EMERGENCY_TAKEOUT := by
  induction l generalizing amount with
  | nil => simp [basicApply]
  | cons f rest ih =>
    have hf : f.name ≠ EMERGENCY_TAKEOUT := hl f (by simp)
    have hrest : ∀ g ∈ rest, g.name ≠ EMERGENCY_TAKEOUT := fun g hg => hl g (by simp [hg])
    by_cases h0 : amount ≤ 0
    · simpa [basicApply, h0] using hl
    · by_cases h1 : f.quantity ≤ amount
      · simp only [basicApply, if_neg h0, if_pos h1, if_neg hf]
        intro g hg
        simp only [List.mem_cons] at hg
        rcases hg with hg | hg
        · subst hg
          exact hf
        · exact ih _ hrest g hg
      · simp only [basicApply, if_neg h0, if_neg h1, if_neg hf]
        intro g hg
        simp only [List.mem_cons] at hg
        rcases hg with hg | hg
        · subst hg
          exact hf
        · exact hrest g hg

/-- Removing the element at a position splits a list's total mass. -/
lemma massSum_eraseIdx : ∀ (l : List FoodItem) (i : ℕ) (h : i < l.length),
    massSum l = (l.get ⟨i, h⟩).quantity + massSum (l.eraseIdx i)
  | [], i, h => absurd h (by simp)
  | f :: rest, 0, _ => by simp [massSum, List.eraseIdx]
  | f :: rest, i + 1, h => by
    have hi : i < rest.length := by simpa using h
    have hrec := massSum_eraseIdx rest i hi
    show massSum (f :: rest) = (rest.get ⟨i, hi⟩).quantity + massSum (f :: rest.eraseIdx i)
    simp only [massSum, List.map_cons, List.sum_cons] at hrec ⊢
    rw [hrec]
    ring

/-- Subtracting a take at a position reduces the total mass by the take. -/
lemma consumeAt_massSum : ∀ (l : List FoodItem) (i : ℕ) (a : ℚ), i < l.length →
    massSum (consumeAt l i a) = massSum l - a
  | [], i, a, h => absurd h (by simp)
  | f :: rest, 0, a, _ => by
    simp [consumeAt, massSum]
    ring
  | f :: rest, i + 1, a, h => by
    have hi : i < rest.length := by simpa using h
    have := consumeAt_massSum rest i a hi
    simp only [consumeAt, massSum, List.map_cons, List.sum_cons] at this ⊢
    rw [this]
    ring

/-- `consumeAt` only rescales one quantity: names are unchanged. -/
lemma consumeAt_names : ∀ (l : List FoodItem) (i : ℕ) (a : ℚ),
    (∀ f ∈ l, f.name ≠ EMERGENCY_TAKEOUT) →
    ∀ f ∈ consumeAt l i a, f.name ≠ EMERGENCY_TAKEOUT
  | [], _, _, hl => by simp [consumeAt]
  | f :: rest, 0, a, hl => by
    intro g hg
    simp only [consumeAt, List.mem_cons] at hg
    rcases hg with hg | hg
    · subst hg
      exact hl f (by simp)
    · exact hl g (by simp [hg])
  | f :: rest, i + 1, a, hl => by
    intro g hg
    simp only [consumeAt, List.mem_cons] at hg
    rcases hg with hg | hg
    · subst hg
      exact hl g (by simp)
    · exact consumeAt_names rest i a (fun x hx => hl x (by simp [hx])) g hg

/-- Every item selected by the random strategy comes from the working
list. -/
lemma randomSelectAux_mem (o : ℕ → ℕ) :
    ∀ (fuel k : ℕ) (l : List FoodItem) (amount : ℚ),
    ∀ pr ∈ (randomSelectAux o fuel k l amount).1, pr.1 ∈ l := by
  intro fuel
  induction fuel with
  | zero =>
    intro k l amount pr hpr
    simp [randomSelectAux] at hpr
  | succ n ih =>
    intro k l amount pr hpr
    simp only [randomSelectAux] at hpr
    split at hpr
    · rename_i h
      split at hpr
      · simp only [List.mem_cons] at hpr
        rcases hpr with hpr | hpr
        · subst hpr
          exact List.get_mem _ _ _
        · exact List.eraseIdx_subset _ _ (ih _ _ _ pr hpr)
      · simp only [List.mem_singleton] at hpr
        subst hpr
        exact List.get_mem _ _ _
    · simp at hpr

/-- The random selection's post-selection list is made of items of the
input list. -/
lemma randomSelectAux_snd_mem (o : ℕ → ℕ) :
    ∀ (fuel k : ℕ) (l : List FoodItem) (amount : ℚ),
    ∀ f ∈ (randomSelectAux o fuel k l amount).2.1, f ∈ l := by
  intro fuel
  induction fuel with
  | zero =>
    intro k l amount f hf
    simpa [randomSelectAux] using hf
  | succ n ih =>
    intro k l amount f hf
    simp only [randomSelectAux] at hf
    split at hf
    · split at hf
      · exact List.eraseIdx_subset _ _ (ih _ _ _ f hf)
      · exact hf
    · exact hf

/-- Mass bookkeeping of the random strategy: when no item of the working
list carries the reserved placeholder name, the list after selection plus
the pending partial consume has lost exactly the selected take-amounts. -/
lemma randomSelectAux_mass (o : ℕ → ℕ) :
    ∀ (fuel k : ℕ) (l : List FoodItem) (amount : ℚ),
    (∀ f ∈ l, f.name ≠ EMERGENCY_TAKEOUT) →
    massSum (applyPartial (randomSelectAux o fuel k l amount).2.1
        (randomSelectAux o fuel k l amount).2.2)
      = massSum l - takesSum (randomSelectAux o fuel k l amount).1 := by
  intro fuel
  induction fuel with
  | zero =>
    intro k l amount hl
    simp [randomSelectAux, applyPartial, takesSum]
  | succ n ih =>
    intro k l amount hl
    simp only [randomSelectAux]
    split
    · rename_i h
      split
      · rename_i hq
        have hsplit := massSum_eraseIdx l (o k % l.length)
          (Nat.mod_lt _ (List.length_pos.mpr h.2))
        have herase : ∀ f ∈ l.eraseIdx (o k % l.length), f.name ≠ EMERGENCY_TAKEOUT :=
          fun f hf => hl f (List.eraseIdx_subset _ _ hf)
        rw [takesSum_cons, ih _ _ _ herase, hsplit]
        ring
      · rename_i hq
        have hget : l.get? (o k % l.length)
            = some (l.get ⟨o k % l.length, Nat.mod_lt _ (List.length_pos.mpr h.2)⟩) :=
          List.get?_eq_get _
        have hname : (l.get ⟨o k % l.length,
            Nat.mod_lt _ (List.length_pos.mpr h.2)⟩).name ≠ EMERGENCY_TAKEOUT :=
          hl _ (List.get_mem _ _ _)
        simp only [applyPartial, hget, if_neg hname]
        rw [consumeAt_massSum l _ amount (Nat.mod_lt _ (List.length_pos.mpr h.2))]
        simp [takesSum]
    · simp [applyPartial, takesSum]

/-- `applyPartial` only drops or rescales items: names of the surviving
items come from the input list. -/
lemma applyPartial_names (l : List FoodItem) (part : Option (ℕ × ℚ))
    (hl : ∀ f ∈ l, f.name ≠ EMERGENCY_TAKEOUT) :
    ∀ f ∈ applyPartial l part, f.name ≠ EMERGENCY_TAKEOUT := by
  cases part with
  | none => exact hl
  | some ia =>
    obtain ⟨i, a⟩ := ia
    cases hget : l.get? i with
    | none =>
      show ∀ f ∈ applyPartial l (some (i, a)), f.name ≠ EMERGENCY_TAKEOUT
      simp only [applyPartial, hget]
      exact hl
    | some g =>
      show ∀ f ∈ applyPartial l (some (i, a)), f.name ≠ EMERGENCY_TAKEOUT
      simp only [applyPartial, hget]
      by_cases hn : g.name = EMERGENCY_TAKEOUT
      · rw [if_pos hn]
        exact hl
      · rw [if_neg hn]
        exact consumeAt_names l i a hl

/-- The random strategy's net pantry effect only drops or rescales items:
names of the surviving items come from the input list. -/
lemma randomSelectAux_apply_names (o : ℕ → ℕ) (fuel k : ℕ) (l : List FoodItem) (amount : ℚ)
    (hl : ∀ f ∈ l, f.name ≠ EMERGENCY_TAKEOUT) :
    ∀ f ∈ applyPartial (randomSelectAux o fuel k l amount).2.1
        (randomSelectAux o fuel k l amount).2.2,
      f.name ≠ EMERGENCY_TAKEOUT :=
  applyPartial_names _ _
    (fun f hf => hl f (randomSelectAux_snd_mem o fuel k l amount f hf))

/-- One `select_food` call plus its `FoodItem.consume` applications, for
every strategy variant: the category list loses exactly the selected
take-amounts (no placeholder-named item present). -/
lemma stratRun_mass (s : StratChoice) (call : ℕ) (l : List FoodItem) (a : ℚ)
    (hl : ∀ f ∈ l, f.name ≠ EMERGENCY_TAKEOUT) :
    massSum (stratRun s call l a).2 = massSum l - takesSum (stratRun s call l a).1 := by
  cases s with
  | basic => exact basicApply_massSum l a hl
  | random o =>
    exact randomSelectAux_mass (o call) l.length 0 l a hl
  | mixed fifo o =>
    simp only [stratRun]
    split
    · exact basicApply_massSum l a hl
    · exact randomSelectAux_mass (o call) l.length 0 l a hl

lemma stratRun_mem (s : StratChoice) (call : ℕ) (l : List FoodItem) (a : ℚ) :
    ∀ pr ∈ (stratRun s call l a).1, pr.1 ∈ l := by
  cases s with
  | basic => exact basicSelect_mem l a
  | random o => exact randomSelectAux_mem (o call) l.length 0 l a
  | mixed fifo o =>
    simp only [stratRun]
    split
    · exact basicSelect_mem l a
    · exact randomSelectAux_mem (o call) l.length 0 l a

lemma stratRun_names (s : StratChoice) (call : ℕ) (l : List FoodItem) (a : ℚ)
    (hl : ∀ f ∈ l, f.name ≠ EMERGENCY_TAKEOUT) :
    ∀ f ∈ (stratRun s call l a).2, f.name ≠ EMERGENCY_TAKEOUT := by
  cases s with
  | basic => exact basicApply_names l a hl
  | random o => exact randomSelectAux_apply_names (o call) l.length 0 l a hl
  | mixed fifo o =>
    simp only [stratRun]
    split
    · exact basicApply_names l a hl
    · exact randomSelectAux_apply_names (o call) l.length 0 l a hl

lemma realTakes_append (a b : List (FoodItem × ℚ)) :
    realTakes (a ++ b) = realTakes a + realTakes b := by
  simp [realTakes, List.filter_append, takesSum_append]

lemma filter_real_of_names (sel : List (FoodItem × ℚ))
    (h : ∀ pr ∈ sel, pr.1.name ≠ EMERGENCY_TAKEOUT) :
    (sel.filter fun fc => decide (fc.1.name ≠ EMERGENCY_TAKEOUT)) = sel := by
  apply List.filter_eq_self.mpr
  intro pr hpr
  simpa using h pr hpr

/-- The take-amounts `Meal.consume` actually subtracts for one pattern entry
are exactly the strategy's selected take-amounts: the appended placeholder
is excluded by its name, and (when the pantry holds no placeholder-named
item) nothing else is. -/
lemma consumeEntry_realTakes (s : StratChoice) (call : ℕ) (a : ℚ) (l : List FoodItem)
    (hl : ∀ f ∈ l, f.name ≠ EMERGENCY_TAKEOUT) :
    realTakes (consumeEntry s call a l).1 = takesSum (stratRun s call l a).1 := by
  have hsel : ∀ pr ∈ (stratRun s call l a).1, pr.1.name ≠ EMERGENCY_TAKEOUT :=
    fun pr hpr => hl pr.1 (stratRun_mem s call l a pr hpr)
  have h1 : realTakes (stratRun s call l a).1 = takesSum (stratRun s call l a).1 := by
    rw [realTakes, filter_real_of_names _ hsel]
  simp only [consumeEntry]
  split
  · rw [realTakes_append, h1]
    have h2 : realTakes [(emergencyItem (a - takesSum (stratRun s call l a).1),
        a - takesSum (stratRun s call l a).1)] = 0 := by
      simp [realTakes, emergencyItem, takesSum]
    rw [h2]
    ring
  · exact h1

/-- Every placeholder-named pair in one pattern entry's realized consumption
is the synthesized Emergency Takeout: PERISHABLE, zero horizons, quantity
equal to its take-amount — the positive shortfall of the entry. -/
lemma consumeEntry_placeholders (s : StratChoice) (call : ℕ) (a : ℚ) (l : List FoodItem)
    (hl : ∀ f ∈ l, f.name ≠ EMERGENCY_TAKEOUT) :
    ∀ pr ∈ (consumeEntry s call a l).1, pr.1.name = EMERGENCY_TAKEOUT →
      pr.1.food_type = .PERISHABLE ∧ pr.1.best_before = 0 ∧ pr.1.spoilage_date = 0 ∧
        pr.1.quantity = pr.2 ∧ 0 < pr.2 := by
  have hsel : ∀ pr ∈ (stratRun s call l a).1, pr.1.name ≠ EMERGENCY_TAKEOUT :=
    fun pr hpr => hl pr.1 (stratRun_mem s call l a pr hpr)
  simp only [consumeEntry]
  split
  · rename_i hrem
    intro pr hpr hname
    rcases List.mem_append.mp hpr with h | h
    · exact absurd hname (hsel pr h)
    · simp only [List.mem_singleton] at h
      subst h
      exact ⟨rfl, rfl, rfl, rfl, hrem⟩
  · intro pr hpr hname
    exact absurd hname (hsel pr hpr)

lemma get_total_setItems (p : Pantry) (t : FoodType) (l : List FoodItem) :
    Pantry.get_total (p.setItems t l)
      = Pantry.get_total p - massSum (p.items_by_type t) + massSum l := by
  cases t <;> simp [Pantry.get_total, Pantry.setItems] <;> ring

lemma setItems_names (p : Pantry) (t : FoodType) (l : List FoodItem)
    (hp : ∀ u, ∀ f ∈ p.items_by_type u, f.name ≠ EMERGENCY_TAKEOUT)
    (hl : ∀ f ∈ l, f.name ≠ EMERGENCY_TAKEOUT) :
    ∀ u, ∀ f ∈ (p.setItems t l).items_by_type u, f.name ≠ EMERGENCY_TAKEOUT := by
  intro u f hf
  simp only [Pantry.setItems] at hf
  by_cases h : u = t
  · rw [if_pos h] at hf
    exact hl f hf
  · rw [if_neg h] at hf
    exact hp u f hf

/-- Main induction over the consumption pattern: `Meal.consume` removes
from the pantry exactly the non-placeholder take-amounts, and every
placeholder-named pair of the realized consumption is the synthesized
Emergency Takeout item. -/
lemma mealConsumeAux_spec (s : StratChoice) :
    ∀ (pattern : List (FoodType × ℚ)) (call : ℕ) (p : Pantry),
    (∀ t, ∀ f ∈ p.items_by_type t, f.name ≠ EMERGENCY_TAKEOUT) →
    Pantry.get_total (mealConsumeAux s call pattern p).2
        = Pantry.get_total p - realTakes (mealConsumeAux s call pattern p).1 ∧
    (∀ pr ∈ (mealConsumeAux s call pattern p).1, pr.1.name = EMERGENCY_TAKEOUT →
      pr.1.food_type = .PERISHABLE ∧ pr.1.best_before = 0 ∧ pr.1.spoilage_date = 0 ∧
        pr.1.quantity = pr.2 ∧ 0 < pr.2) := by
  intro pattern
  induction pattern with
  | nil =>
    intro call p hp
    constructor
    · simp [mealConsumeAux, realTakes, takesSum]
    · simp [mealConsumeAux]
  | cons entry rest ih =>
    obtain ⟨t, a⟩ := entry
    intro call p hp
    have hlt : ∀ f ∈ p.items_by_type t, f.name ≠ EMERGENCY_TAKEOUT := hp t
    have hmass := stratRun_mass s call (p.items_by_type t) a hlt
    have hnames := stratRun_names s call (p.items_by_type t) a hlt
    have hesnd : (consumeEntry s call a (p.items_by_type t)).2
        = (stratRun s call (p.items_by_type t) a).2 := rfl
    have hp' : ∀ u, ∀ f ∈ (p.setItems t
          (consumeEntry s call a (p.items_by_type t)).2).items_by_type u,
        f.name ≠ EMERGENCY_TAKEOUT :=
      setItems_names p t _ hp (hesnd ▸ hnames)
    have hIH := ih (call + 1) (p.setItems t (consumeEntry s call a (p.items_by_type t)).2) hp'
    constructor
    · show Pantry.get_total (mealConsumeAux s (call + 1) rest
          (p.setItems t (consumeEntry s call a (p.items_by_type t)).2)).2
        = Pantry.get_total p
          - realTakes ((consumeEntry s call a (p.items_by_type t)).1
              ++ (mealConsumeAux s (call + 1) rest
                (p.setItems t (consumeEntry s call a (p.items_by_type t)).2)).1)
      rw [hIH.1, realTakes_append, consumeEntry_realTakes s call a _ hlt,
        get_total_setItems, hesnd, hmass]
      ring
    · show ∀ pr ∈ (consumeEntry s call a (p.items_by_type t)).1
          ++ (mealConsumeAux s (call + 1) rest
            (p.setItems t (consumeEntry s call a (p.items_by_type t)).2)).1, _
      intro pr hpr
      rcases List.mem_append.mp hpr with h | h
      · exact consumeEntry_placeholders s call a _ hlt pr h
      · exact hIH.2 pr h

/-- C7 (amended): provided the pantry holds no item carrying the reserved
name `"Emergency Takeout"` (the code tells the placeholder apart purely by
that name), `Meal.consume` never subtracts the placeholder from the pantry:
the pantry's total mass afterwards equals its total before minus exactly
the take-amounts of the non-placeholder selected pairs; every
placeholder-named pair in the returned selection is the synthesized
PERISHABLE item with `best_before = 0`, `spoilage_date = 0` and mass equal
to its (positive) take; and that mass is exactly the shortfall between the
entry's requested amount and the strategy's sourced amount. -/
theorem claim_C7_amended (s : StratChoice) (pattern : List (FoodType × ℚ)) (p : Pantry)
    (hp : ∀ t, ∀ f ∈ p.items_by_type t, f.name ≠ EMERGENCY_TAKEOUT) :
    Pantry.get_total (Meal.consume s pattern p).2
        = Pantry.get_total p - realTakes (Meal.consume s pattern p).1 ∧
    (∀ pr ∈ (Meal.consume s pattern p).1, pr.1.name = EMERGENCY_TAKEOUT →
      pr.1.food_type = .PERISHABLE ∧ pr.1.best_before = 0 ∧ pr.1.spoilage_date = 0 ∧
        pr.1.quantity = pr.2 ∧ 0 < pr.2) ∧
    (∀ (call : ℕ) (a : ℚ) (l : List FoodItem),
      0 < a - takesSum (stratRun s call l a).1 →
      (consumeEntry s call a l).1
        = (stratRun s call l a).1
            ++ [(emergencyItem (a - takesSum (stratRun s call l a).1),
                 a - takesSum (stratRun s call l a).1)]) := by
  refine ⟨(mealConsumeAux_spec s pattern 0 p hp).1, (mealConsumeAux_spec s pattern 0 p hp).2, ?_⟩
  intro call a l hpos
  simp only [consumeEntry]
  rw [if_pos hpos]

/-- Witness for C7 (amended): a basic-strategy meal of 500 g perishables
against an empty pantry — the conservation equation instantiated there. -/
theorem claim_C7_amended_witness :
    Pantry.get_total (Meal.consume .basic [(.PERISHABLE, 500)] Pantry.empty).2
      = Pantry.get_total Pantry.empty
        - realTakes (Meal.consume .basic [(.PERISHABLE, 500)] Pantry.empty).1 :=
  (claim_C7_amended .basic [(.PERISHABLE, 500)] Pantry.empty
    (by simp [Pantry.empty])).1

/-- C7 (counterexample to the claim as stated): `Meal.consume` tells the
placeholder apart from pantry items purely by the name string, so a genuine
pantry item named `"Emergency Takeout"` (best_before 5, so visibly not the
synthesized zero-horizon placeholder) is selected with a take of 2 but never
subtracted: the pantry total stays 2 instead of the claimed 2 - 2. -/
theorem claim_C7_counterexample :
    (Meal.consume .basic [(.PERISHABLE, 2)]
        (⟨fun t => match t with
          | .PERISHABLE => [⟨"Emergency Takeout", .PERISHABLE, 5, 5, 2⟩]
          | _ => [], [], [], 0⟩ : Pantry)).1
      = [((⟨"Emergency Takeout", .PERISHABLE, 5, 5, 2⟩ : FoodItem), 2)] ∧
    Pantry.get_total (Meal.consume .basic [(.PERISHABLE, 2)]
        (⟨fun t => match t with
          | .PERISHABLE => [⟨"Emergency Takeout", .PERISHABLE, 5, 5, 2⟩]
          | _ => [], [], [], 0⟩ : Pantry)).2 = 2 ∧
    Pantry.get_total (⟨fun t => match t with
          | .PERISHABLE => [⟨"Emergency Takeout", .PERISHABLE, 5, 5, 2⟩]
          | _ => [], [], [], 0⟩ : Pantry) = 2 ∧
    (2 : ℚ) - 2 ≠ 2 := by
  refine ⟨?_, ?_, ?_, by norm_num⟩ <;>
    norm_num [Meal.consume, mealConsumeAux, consumeEntry, stratRun,
      BasicConsumptionStrategy.select_food, basicApply, takesSum, emergencyItem,
      EMERGENCY_TAKEOUT, Pantry.setItems, Pantry.get_total, massSum,
      (by decide : FoodType.LEFTOVER ≠ FoodType.PERISHABLE),
      (by decide : FoodType.NON_PERISHABLE ≠ FoodType.PERISHABLE)]

/-- Closed form of the `daily_consumption` fold: each category's total is
the sum of the take-amounts of the pairs of that category, and the
emergency counter is the sum of the take-amounts of the
placeholder-named pairs. -/
lemma accumulate_go : ∀ (c : List (FoodItem × ℚ)) (w : FoodType → ℚ) (e : ℚ),
    (c.foldl (fun acc fc =>
        (bump acc.1 fc.1.food_type fc.2,
         if fc.1.name = EMERGENCY_TAKEOUT then acc.2 + fc.2 else acc.2)) (w, e))
      = (fun t => w t + takesSum (c.filter fun fc => decide (fc.1.food_type = t)),
         e + takesSum (c.filter fun fc => decide (fc.1.name = EMERGENCY_TAKEOUT)))
  | [], w, e => by
    refine Prod.ext ?_ ?_
    · funext t
      simp [takesSum]
    · simp [takesSum]
  | fc :: c, w, e => by
    rw [List.foldl_cons, accumulate_go c]
    refine Prod.ext ?_ ?_
    · funext t
      by_cases h : fc.1.food_type = t
      · subst h
        simp [bump, List.filter_cons, takesSum_cons]
        try ring
      · have h2 : ¬ t = fc.1.food_type := fun hh => h hh.symm
        simp [bump, List.filter_cons, h, h2]
    · by_cases h : fc.1.name = EMERGENCY_TAKEOUT
      · simp [List.filter_cons, h, takesSum_cons]
        try ring
      · simp [List.filter_cons, h]

lemma accumulateConsumption_fst (c : List (FoodItem × ℚ)) (t : FoodType) :
    (accumulateConsumption c).1 t
      = takesSum (c.filter fun fc => decide (fc.1.food_type = t)) := by
  rw [accumulateConsumption, accumulate_go]
  simp

lemma accumulateConsumption_snd (c : List (FoodItem × ℚ)) :
    (accumulateConsumption c).2
      = takesSum (c.filter fun fc => decide (fc.1.name = EMERGENCY_TAKEOUT)) := by
  rw [accumulateConsumption, accumulate_go]
  simp

/-- Splitting a filtered sum by a second Boolean test. -/
lemma takesSum_filter_split (q r : (FoodItem × ℚ) → Bool) :
    ∀ c : List (FoodItem × ℚ),
    takesSum (c.filter q)
      = takesSum (c.filter fun x => q x && r x)
        + takesSum (c.filter fun x => q x && !(r x))
  | [] => by simp [takesSum]
  | x :: c => by
    have ih := takesSum_filter_split q r c
    cases hq : q x <;> cases hr : r x <;>
      simp [List.filter_cons, hq, hr, takesSum_cons, ih] <;> try ring

/-- When every placeholder-named pair is PERISHABLE, the recorded
perishable consumption decomposes into the emergency-takeout mass plus the
genuine perishable mass. -/
lemma acc_decomp (c : List (FoodItem × ℚ))
    (h : ∀ pr ∈ c, pr.1.name = EMERGENCY_TAKEOUT → pr.1.food_type = .PERISHABLE) :
    (accumulateConsumption c).1 .PERISHABLE
      = (accumulateConsumption c).2 + realPerishable c := by
  rw [accumulateConsumption_fst, accumulateConsumption_snd]
  rw [takesSum_filter_split (fun fc => decide (fc.1.food_type = FoodType.PERISHABLE))
    (fun fc => decide (fc.1.name = EMERGENCY_TAKEOUT)) c]
  have h1 : (c.filter fun fc => decide (fc.1.name = EMERGENCY_TAKEOUT))
      = c.filter fun fc => decide (fc.1.food_type = FoodType.PERISHABLE)
          && decide (fc.1.name = EMERGENCY_TAKEOUT) := by
    apply List.filter_congr
    intro pr hpr
    by_cases hn : pr.1.name = EMERGENCY_TAKEOUT
    · simp [hn, h pr hpr hn]
    · simp [hn]
  have h2 : (c.filter fun fc => decide (fc.1.food_type = FoodType.PERISHABLE)
        && !(decide (fc.1.name = EMERGENCY_TAKEOUT)))
      = c.filter fun fc => decide (fc.1.food_type = FoodType.PERISHABLE)
          && decide (fc.1.name ≠ EMERGENCY_TAKEOUT) := by
    apply List.filter_congr
    intro pr hpr
    by_cases hn : pr.1.name = EMERGENCY_TAKEOUT <;> simp [hn]
  rw [h1, h2, realPerishable]

/-- C10: in the `Household.daily_step` bookkeeping, the Emergency Takeout
placeholder's mass is added to `daily_consumption[PERISHABLE]` (its food
type is PERISHABLE) on top of the genuine perishable consumption, while
also being accumulated in the separate emergency counter; consequently the
7-day perishable mean over such records — the mean
`HistoricalConsumptionPolicy`/`AdaptiveOrderPolicy` use — includes the
emergency-takeout mass. -/
theorem claim_C10_takeout_counted_as_perishable (s : StratChoice)
    (pattern : List (FoodType × ℚ)) (p : Pantry)
    (hp : ∀ t, ∀ f ∈ p.items_by_type t, f.name ≠ EMERGENCY_TAKEOUT) :
    (accumulateConsumption (Meal.consume s pattern p).1).1 .PERISHABLE
        = (accumulateConsumption (Meal.consume s pattern p).1).2
          + realPerishable (Meal.consume s pattern p).1 ∧
    (∀ pr ∈ (Meal.consume s pattern p).1, pr.1.name = EMERGENCY_TAKEOUT →
        pr.1.food_type = .PERISHABLE) ∧
    (∀ records : List (List (FoodItem × ℚ)),
      (∀ c ∈ records, ∀ pr ∈ c, pr.1.name = EMERGENCY_TAKEOUT →
        pr.1.food_type = .PERISHABLE) →
      meanPerishable (records.map fun c => (accumulateConsumption c).1)
        = ((records.map fun c => (accumulateConsumption c).2 + realPerishable c).sum)
            / records.length) := by
  have hph := (mealConsumeAux_spec s pattern 0 p hp).2
  refine ⟨?_, ?_, ?_⟩
  · exact acc_decomp _ (fun pr hpr hn => (hph pr hpr hn).1)
  · exact fun pr hpr hn => (hph pr hpr hn).1
  · intro records hrec
    simp only [meanPerishable, List.map_map, List.length_map]
    have hmap : List.map ((fun d => d FoodType.PERISHABLE)
            ∘ fun c => (accumulateConsumption c).1) records
        = List.map (fun c => (accumulateConsumption c).2 + realPerishable c) records :=
      List.map_congr_left (fun c hc => by
        simpa [Function.comp] using acc_decomp c (hrec c hc))
    rw [hmap]

/-- Witness for C10: a basic-strategy meal of 500 g perishables against an
empty pantry is sourced entirely as Emergency Takeout, and the recorded
perishable consumption equals the emergency counter plus the (zero) genuine
perishable consumption. -/
theorem claim_C10_takeout_counted_as_perishable_witness :
    (accumulateConsumption (Meal.consume .basic [(.PERISHABLE, 500)]
        Pantry.empty).1).1 .PERISHABLE
      = (accumulateConsumption (Meal.consume .basic [(.PERISHABLE, 500)]
          Pantry.empty).1).2
        + realPerishable (Meal.consume .basic [(.PERISHABLE, 500)] Pantry.empty).1 :=
  (claim_C10_takeout_counted_as_perishable .basic [(.PERISHABLE, 500)] Pantry.empty
    (by simp [Pantry.empty])).1

lemma pyInt_of_nonneg {x : ℚ} (h : 0 ≤ x) : pyInt x = ⌊x⌋ := by
  simp [pyInt, h]

lemma pyInt_nonneg {x : ℚ} (h : 0 ≤ x) : 0 ≤ pyInt x := by
  rw [pyInt_of_nonneg h]
  exact Int.floor_nonneg.mpr h

lemma pyInt_le_int {x : ℚ} {z : ℤ} (h0 : 0 ≤ x) (h : x ≤ (z : ℚ)) : pyInt x ≤ z := by
  rw [pyInt_of_nonneg h0]
  calc ⌊x⌋ ≤ ⌊(z : ℚ)⌋ := Int.floor_le_floor h
    _ = z := Int.floor_intCast z

lemma pyInt_intCast (z : ℤ) : pyInt (z : ℚ) = z := by
  rcases le_or_lt 0 z with h | h
  · rw [pyInt_of_nonneg (by exact_mod_cast h)]
    exact Int.floor_intCast z
  · have hx : ¬ (0 : ℚ) ≤ (z : ℚ) := by
      exact_mod_cast not_le.mpr h
    simp [pyInt, hx]

/-- Invariant of the `get_order` loop: as long as every quantity draw is
nonnegative and the fuel exceeds `remaining + (100 - failures)`, the loop
runs to its real exit: the order's mass plus the final remaining equals the
initial remaining, the final remaining is nonnegative, and the loop stopped
either because the remaining need hit zero or because the cumulative
zero-draw counter hit 100. -/
lemma getOrderAux_spec (ft : FoodType) (bbDraw sdDraw : ℕ → ℤ) (qDraw : ℕ → ℚ)
    (hq : ∀ i, 0 ≤ qDraw i) :
    ∀ (fuel idx : ℕ) (remaining : ℤ) (failures : ℕ),
    0 ≤ remaining → failures ≤ 100 →
    remaining.toNat + (100 - failures) < fuel →
    massSum (getOrderAux ft bbDraw sdDraw qDraw fuel idx remaining failures).1
        + ((getOrderAux ft bbDraw sdDraw qDraw fuel idx remaining failures).2.1 : ℚ)
      = (remaining : ℚ) ∧
    0 ≤ (getOrderAux ft bbDraw sdDraw qDraw fuel idx remaining failures).2.1 ∧
    ((getOrderAux ft bbDraw sdDraw qDraw fuel idx remaining failures).2.1 = 0
      ∨ (getOrderAux ft bbDraw sdDraw qDraw fuel idx remaining failures).2.2 = 100) := by
  intro fuel
  induction fuel with
  | zero =>
    intro idx remaining failures h0 h100 hfuel
    omega
  | succ n ih =>
    intro idx remaining failures h0 h100 hfuel
    by_cases hcond : 0 < remaining ∧ failures < 100
    · have hmin0 : 0 ≤ min (qDraw idx) (remaining : ℚ) :=
        le_min (hq idx) (by exact_mod_cast h0)
      have hminr : min (qDraw idx) (remaining : ℚ) ≤ (remaining : ℚ) := min_le_right _ _
      have hq0 : 0 ≤ pyInt (min (qDraw idx) (remaining : ℚ)) := pyInt_nonneg hmin0
      have hqr : pyInt (min (qDraw idx) (remaining : ℚ)) ≤ remaining :=
        pyInt_le_int hmin0 hminr
      by_cases hz : pyInt (min (qDraw idx) (remaining : ℚ)) = 0
      · have hrec := ih (idx + 1) remaining (failures + 1) h0 (by omega) (by omega)
        simp only [getOrderAux, if_pos hcond, if_pos hz]
        exact hrec
      · have hq1 : 1 ≤ pyInt (min (qDraw idx) (remaining : ℚ)) := by omega
        have hrec := ih (idx + 1) (remaining - pyInt (min (qDraw idx) (remaining : ℚ)))
          failures (by omega) h100 (by omega)
        simp only [getOrderAux, if_pos hcond, if_neg hz]
        refine ⟨?_, hrec.2.1, hrec.2.2⟩
        simp only [massSum, List.map_cons, List.sum_cons] at hrec ⊢
        push_cast at hrec ⊢
        linarith [hrec.1]
    · simp only [getOrderAux, if_neg hcond]
      refine ⟨by simp [massSum], h0, ?_⟩
      omega

/-- C5 (amended): for every category, nonnegative requested quantity and
draw stream of nonnegative quantity draws, `get_order` stops either with
the cumulative drawn mass exactly `int(total_quantity)` (remaining need 0)
or with the cumulative zero-quantity-draw counter at exactly 100 — the
counter is cumulative over the whole call, not reset by successful draws —
in which case the order is silently truncated to a smaller total (the
remaining need stays nonnegative; no error value exists). -/
theorem claim_C5_amended (ft : FoodType) (total_quantity : ℚ)
    (bbDraw sdDraw : ℕ → ℤ) (qDraw : ℕ → ℚ)
    (hq : ∀ i, 0 ≤ qDraw i) (htq : 0 ≤ total_quantity) :
    (massSum (GroceryStore.get_order ft total_quantity bbDraw sdDraw qDraw).1
        = (pyInt total_quantity : ℚ)
      ∧ (GroceryStore.get_order ft total_quantity bbDraw sdDraw qDraw).2.1 = 0)
    ∨ ((GroceryStore.get_order ft total_quantity bbDraw sdDraw qDraw).2.2 = 100
      ∧ massSum (GroceryStore.get_order ft total_quantity bbDraw sdDraw qDraw).1
          + ((GroceryStore.get_order ft total_quantity bbDraw sdDraw qDraw).2.1 : ℚ)
        = (pyInt total_quantity : ℚ)
      ∧ 0 ≤ (GroceryStore.get_order ft total_quantity bbDraw sdDraw qDraw).2.1) := by
  have h0 : 0 ≤ pyInt total_quantity := pyInt_nonneg htq
  have hspec := getOrderAux_spec ft bbDraw sdDraw qDraw hq
    ((pyInt total_quantity).toNat + 101) 0 (pyInt total_quantity) 0 h0 (by omega) (by omega)
  rcases hspec.2.2 with hrem | hfail
  · left
    constructor
    · have := hspec.1
      rw [show (GroceryStore.get_order ft total_quantity bbDraw sdDraw qDraw)
          = getOrderAux ft bbDraw sdDraw qDraw ((pyInt total_quantity).toNat + 101) 0
            (pyInt total_quantity) 0 from rfl]
      rw [show (getOrderAux ft bbDraw sdDraw qDraw ((pyInt total_quantity).toNat + 101) 0
          (pyInt total_quantity) 0).2.1 = 0 from hrem] at this
      simpa using this
    · exact hrem
  · right
    exact ⟨hfail, hspec.1, hspec.2.1⟩

/-- Witness for C5 (amended): constant quantity draws of 1 against a
request of 2 — the theorem instantiated at a concrete input. -/
theorem claim_C5_amended_witness :
    (massSum (GroceryStore.get_order .PERISHABLE 2 (fun _ => 3) (fun _ => 5)
        (fun _ => 1)).1 = (pyInt 2 : ℚ)
      ∧ (GroceryStore.get_order .PERISHABLE 2 (fun _ => 3) (fun _ => 5)
          (fun _ => 1)).2.1 = 0)
    ∨ ((GroceryStore.get_order .PERISHABLE 2 (fun _ => 3) (fun _ => 5)
          (fun _ => 1)).2.2 = 100
      ∧ massSum (GroceryStore.get_order .PERISHABLE 2 (fun _ => 3) (fun _ => 5)
            (fun _ => 1)).1
          + ((GroceryStore.get_order .PERISHABLE 2 (fun _ => 3) (fun _ => 5)
              (fun _ => 1)).2.1 : ℚ)
        = (pyInt 2 : ℚ)
      ∧ 0 ≤ (GroceryStore.get_order .PERISHABLE 2 (fun _ => 3) (fun _ => 5)
          (fun _ => 1)).2.1) :=
  claim_C5_amended .PERISHABLE 2 (fun _ => 3) (fun _ => 5) (fun _ => 1)
    (fun i => by norm_num) (by norm_num)

/-- Every item built by the `get_order` loop has its spoilage date clamped
to at least `best_before + 1`. -/
lemma getOrderAux_spoilage (ft : FoodType) (bbDraw sdDraw : ℕ → ℤ) (qDraw : ℕ → ℚ) :
    ∀ (fuel idx : ℕ) (remaining : ℤ) (failures : ℕ),
    ∀ item ∈ (getOrderAux ft bbDraw sdDraw qDraw fuel idx remaining failures).1,
      item.spoilage_date ≥ item.best_before + 1 ∧
      ctorRejects item.best_before item.spoilage_date = false := by
  intro fuel
  induction fuel with
  | zero =>
    intro idx remaining failures item hitem
    simp [getOrderAux] at hitem
  | succ n ih =>
    intro idx remaining failures item hitem
    by_cases hcond : 0 < remaining ∧ failures < 100
    · by_cases hz : pyInt (min (qDraw idx) (remaining : ℚ)) = 0
      · simp only [getOrderAux, if_pos hcond, if_pos hz] at hitem
        exact ih _ _ _ item hitem
      · simp only [getOrderAux, if_pos hcond, if_neg hz, List.mem_cons] at hitem
        rcases hitem with hitem | hitem
        · subst hitem
          refine ⟨le_max_left _ _, ?_⟩
          simp only [ctorRejects, decide_eq_false_iff_not, not_lt]
          exact le_trans (by omega) (le_max_left _ _)
        · exact ih _ _ _ item hitem
    · simp only [getOrderAux, if_neg hcond] at hitem
      simp at hitem

/-- C9: every FoodItem returned by `GroceryStore.get_order` satisfies
`spoilage_date >= best_before + 1` (the clamp `max(best_before + 1, draw)`),
so the FoodItem constructor's validation (`best_before > spoilage_date`)
never fires inside `get_order`, for every category, requested quantity and
draw stream. -/
theorem claim_C9_spoilage_clamped (ft : FoodType) (total_quantity : ℚ)
    (bbDraw sdDraw : ℕ → ℤ) (qDraw : ℕ → ℚ) :
    ∀ item ∈ (GroceryStore.get_order ft total_quantity bbDraw sdDraw qDraw).1,
      item.spoilage_date ≥ item.best_before + 1 ∧
      ctorRejects item.best_before item.spoilage_date = false :=
  getOrderAux_spoilage ft bbDraw sdDraw qDraw _ 0 (pyInt total_quantity) 0

/-- A block of `n` zero-quantity draws (draws whose truncation against the
remaining need is zero) advances only the index and the cumulative failure
counter. -/
lemma getOrderAux_zero_run (ft : FoodType) (bbDraw sdDraw : ℕ → ℤ) (qDraw : ℕ → ℚ) :
    ∀ (n fuel idx : ℕ) (remaining : ℤ) (failures : ℕ),
    0 < remaining →
    (∀ j, j < n → pyInt (min (qDraw (idx + j)) (remaining : ℚ)) = 0) →
    failures + n ≤ 100 →
    getOrderAux ft bbDraw sdDraw qDraw (fuel + n) idx remaining failures
      = getOrderAux ft bbDraw sdDraw qDraw fuel (idx + n) remaining (failures + n)
  | 0, fuel, idx, remaining, failures => by
    intro hrem hdraw hf
    simp
  | n + 1, fuel, idx, remaining, failures => by
    intro hrem hdraw hf
    have hcond : 0 < remaining ∧ failures < 100 := ⟨hrem, by omega⟩
    have hz : pyInt (min (qDraw idx) (remaining : ℚ)) = 0 := by
      simpa using hdraw 0 (by omega)
    show getOrderAux ft bbDraw sdDraw qDraw ((fuel + n) + 1) idx remaining failures = _
    simp only [getOrderAux, if_pos hcond, if_pos hz]
    have hrec := getOrderAux_zero_run ft bbDraw sdDraw qDraw n fuel (idx + 1) remaining
      (failures + 1) hrem
      (fun j hj => by
        have he : idx + 1 + j = idx + (j + 1) := by omega
        rw [he]
        exact hdraw (j + 1) (by omega))
      (by omega)
    rw [hrec]
    have h1 : idx + 1 + n = idx + (n + 1) := by omega
    have h2 : failures + 1 + n = failures + (n + 1) := by omega
    rw [h1, h2]

/-- One live iteration with a nonzero truncated draw emits one item and
reduces the remaining need by the drawn quantity. -/
lemma getOrderAux_success_step (ft : FoodType) (bbDraw sdDraw : ℕ → ℤ) (qDraw : ℕ → ℚ)
    (fuel idx : ℕ) (remaining : ℤ) (failures : ℕ)
    (h1 : 0 < remaining) (h2 : failures < 100)
    (h3 : pyInt (min (qDraw idx) (remaining : ℚ)) ≠ 0) :
    getOrderAux ft bbDraw sdDraw qDraw (fuel + 1) idx remaining failures
      = ((⟨ft.pyName ++ " - item", ft, bbDraw idx, max (bbDraw idx + 1) (sdDraw idx),
            (pyInt (min (qDraw idx) (remaining : ℚ)) : ℚ)⟩ : FoodItem)
          :: (getOrderAux ft bbDraw sdDraw qDraw fuel (idx + 1)
              (remaining - pyInt (min (qDraw idx) (remaining : ℚ))) failures).1,
         (getOrderAux ft bbDraw sdDraw qDraw fuel (idx + 1)
            (remaining - pyInt (min (qDraw idx) (remaining : ℚ))) failures).2) := by
  have hc : 0 < remaining ∧ failures < 100 := ⟨h1, h2⟩
  simp only [getOrderAux, if_pos hc, if_neg h3]

/-- When the loop condition fails, the loop returns the current state. -/
lemma getOrderAux_stop (ft : FoodType) (bbDraw sdDraw : ℕ → ℤ) (qDraw : ℕ → ℚ)
    (fuel idx : ℕ) (remaining : ℤ) (failures : ℕ)
    (h : ¬(0 < remaining ∧ failures < 100)) :
    getOrderAux ft bbDraw sdDraw qDraw (fuel + 1) idx remaining failures
      = ([], remaining, failures) := by
  simp only [getOrderAux, if_neg h]

/-- C5 (counterexample to the claim as stated): with quantity draws inside
the real support of `uniform(0.1*2, 0.5*2) = [0.2, 1.0]` — fifty draws of
1/5 (which truncate to quantity 0), one draw of 1 (which truncates to
quantity 1, a successful draw), then draws of 1/5 again — `get_order(·, 2)`
stops with the order truncated to total mass 1 ≠ int(2) = 2, because the
zero-draw counter is cumulative: it is never reset by the successful draw
and reaches 100.  No 100 consecutive zero-quantity draws ever occurred:
every window of 100 consecutive iterations among the 101 consumed contains
iteration 50, whose draw truncates to the nonzero quantity 1.  Under the
claim's stopping rule the loop would have continued. -/
theorem claim_C5_counterexample :
    massSum (GroceryStore.get_order .PERISHABLE 2 (fun _ => 3) (fun _ => 5)
        (fun i => if i = 50 then (1 : ℚ) else 1/5)).1 = 1 ∧
    (GroceryStore.get_order .PERISHABLE 2 (fun _ => 3) (fun _ => 5)
        (fun i => if i = 50 then (1 : ℚ) else 1/5)).2.2 = 100 ∧
    pyInt 2 = 2 ∧
    (1 : ℚ) ≠ (2 : ℚ) ∧
    pyInt (min ((fun i => if i = 50 then (1 : ℚ) else 1/5) 50) ((2 : ℤ) : ℚ)) = 1 ∧
    (∀ start : ℕ, start + 100 ≤ 101 → ∃ j, j < 100 ∧ start + j = 50) := by
  have hpy2 : pyInt (2 : ℚ) = 2 := by simpa using pyInt_intCast 2
  have h15a : pyInt (min ((1 : ℚ)/5) ((2 : ℤ) : ℚ)) = 0 := by
    rw [min_eq_left (by norm_num), pyInt_of_nonneg (by norm_num)]
    norm_num
  have h15b : pyInt (min ((1 : ℚ)/5) ((1 : ℤ) : ℚ)) = 0 := by
    rw [min_eq_left (by norm_num), pyInt_of_nonneg (by norm_num)]
    norm_num
  have hq50 : pyInt (min ((fun i => if i = 50 then (1 : ℚ) else 1/5) 50)
      ((2 : ℤ) : ℚ)) = 1 := by
    have : min ((fun i => if i = 50 then (1 : ℚ) else 1/5) 50) ((2 : ℤ) : ℚ)
        = ((1 : ℤ) : ℚ) := by norm_num
    rw [this, pyInt_intCast]
  have hA := getOrderAux_zero_run .PERISHABLE (fun _ => 3) (fun _ => 5)
    (fun i => if i = 50 then (1 : ℚ) else 1/5) 50 53 0 2 0 (by norm_num)
    (fun j hj => by
      show pyInt (min (if 0 + j = 50 then (1 : ℚ) else 1/5) ((2 : ℤ) : ℚ)) = 0
      rw [if_neg (by omega)]
      exact h15a)
    (by norm_num)
  norm_num at hA
  have hB := getOrderAux_success_step .PERISHABLE (fun _ => 3) (fun _ => 5)
    (fun i => if i = 50 then (1 : ℚ) else 1/5) 52 50 2 50 (by norm_num) (by norm_num)
    (by rw [hq50]; norm_num)
  rw [hq50] at hB
  norm_num at hB
  have hC := getOrderAux_zero_run .PERISHABLE (fun _ => 3) (fun _ => 5)
    (fun i => if i = 50 then (1 : ℚ) else 1/5) 50 2 51 1 50 (by norm_num)
    (fun j hj => by
      show pyInt (min (if 51 + j = 50 then (1 : ℚ) else 1/5) ((1 : ℤ) : ℚ)) = 0
      rw [if_neg (by omega)]
      exact h15b)
    (by norm_num)
  norm_num at hC
  have hD := getOrderAux_stop .PERISHABLE (fun _ => 3) (fun _ => 5)
    (fun i => if i = 50 then (1 : ℚ) else 1/5) 1 101 1 100 (by norm_num)
  norm_num at hD
  have hunfold : GroceryStore.get_order .PERISHABLE 2 (fun _ => 3) (fun _ => 5)
      (fun i => if i = 50 then (1 : ℚ) else 1/5)
      = getOrderAux .PERISHABLE (fun _ => 3) (fun _ => 5)
          (fun i => if i = 50 then (1 : ℚ) else 1/5) 103 0 2 0 := by
    rw [GroceryStore.get_order, hpy2,
      show ((2 : ℤ).toNat + 101) = 103 by decide]
  have hrun : getOrderAux .PERISHABLE (fun _ => 3) (fun _ => 5)
      (fun i => if i = 50 then (1 : ℚ) else 1/5) 103 0 2 0
      = ([⟨"PERISHABLE - item", .PERISHABLE, 3, 5, 1⟩], 1, 100) := by
    rw [hA, hB, hC, hD]
    rfl
  refine ⟨?_, ?_, hpy2, by norm_num, hq50, ?_⟩
  · rw [hunfold, hrun]
    simp [massSum]
  · rw [hunfold, hrun]
  · intro start hstart
    exact ⟨50 - start, by omega, by omega⟩

/-- Witness for C9: a concrete one-item order — the clamp instantiated on
its item. -/
theorem claim_C9_spoilage_clamped_witness :
    (⟨"PERISHABLE - item", .PERISHABLE, 3, 5, 1⟩ : FoodItem).spoilage_date
      ≥ (⟨"PERISHABLE - item", .PERISHABLE, 3, 5, 1⟩ : FoodItem).best_before + 1 ∧
    ctorRejects (⟨"PERISHABLE - item", .PERISHABLE, 3, 5, 1⟩ : FoodItem).best_before
      (⟨"PERISHABLE - item", .PERISHABLE, 3, 5, 1⟩ : FoodItem).spoilage_date = false := by
  have hpy1 : pyInt (1 : ℚ) = 1 := by simpa using pyInt_intCast 1
  have hq0 : pyInt (min ((fun _ => (1 : ℚ)) 0) ((1 : ℤ) : ℚ)) = 1 := by
    have : min ((fun _ => (1 : ℚ)) 0) ((1 : ℤ) : ℚ) = ((1 : ℤ) : ℚ) := by norm_num
    rw [this, pyInt_intCast]
  have hstep := getOrderAux_success_step .PERISHABLE (fun _ => 3) (fun _ => 5)
    (fun _ => (1 : ℚ)) 101 0 1 0 (by norm_num) (by norm_num) (by rw [hq0]; norm_num)
  rw [hq0] at hstep
  norm_num at hstep
  have hstop := getOrderAux_stop .PERISHABLE (fun _ => 3) (fun _ => 5)
    (fun _ => (1 : ℚ)) 100 1 0 0 (by norm_num)
  norm_num at hstop
  have hrun : GroceryStore.get_order .PERISHABLE 1 (fun _ => 3) (fun _ => 5)
      (fun _ => (1 : ℚ))
      = ([⟨"PERISHABLE - item", .PERISHABLE, 3, 5, 1⟩], 0, 0) := by
    rw [GroceryStore.get_order, hpy1,
      show ((1 : ℤ).toNat + 101) = 102 by decide,
      show (102 : ℕ) = 101 + 1 by decide, hstep]
    rw [show (101 : ℕ) = 100 + 1 by decide, hstop]
    rfl
  exact claim_C9_spoilage_clamped .PERISHABLE 1 (fun _ => 3) (fun _ => 5) (fun _ => (1 : ℚ))
    (⟨"PERISHABLE - item", .PERISHABLE, 3, 5, 1⟩ : FoodItem)
    (by rw [hrun]; simp)

end PantrySim
